import Mathlib

/-!
Verification development for the helmfile deployment-execution core
(terraform-provider-helmfile). The Go sources are shallowly embedded:
pure decision logic becomes Lean functions, process-environment mutation
becomes explicit state passing over a total map `String → Option String`,
and fallible operations return `Option` errors. File-system writes and
YAML marshalling are outside the embedding; the path/document
construction that feeds them is embedded faithfully.
-/

namespace Helmfile

/-- A Go `error` value (only its message matters to the embedded logic). -/
inductive GoError where
  | errorf (msg : String)
  | exitError (code : Nat)
deriving DecidableEq, Repr

/-- A Go `interface{}` value as stored in an `EnvironmentVariables` map:
either a string or some non-string value (the embedded code only ever
distinguishes these two cases, via the `value.(string)` type assertion). -/
inductive GoValue where
  | str (s : String)
  | nonstr
deriving DecidableEq, Repr

/-- The process environment: a total map from variable name to
`some value` (present, possibly empty) or `none` (absent), mirroring
`os.LookupEnv`. -/
def EnvMap : Type := String → Option String

/-- `os.Setenv`. -/
def setenvF (e : EnvMap) (k v : String) : EnvMap :=
  fun n => if n = k then some v else e n

/-- `os.Unsetenv`. -/
def unsetenvF (e : EnvMap) (k : String) : EnvMap :=
  fun n => if n = k then none else e n

/-- The fixed variable list `awsEnvVars` from `setEnvironmentVariables`
(src/unnamed/part_005, line 261). -/
def awsEnvVars : List String :=
  ["AWS_PROFILE", "AWS_REGION", "AWS_DEFAULT_REGION", "AWS_ACCESS_KEY_ID",
   "AWS_SECRET_ACCESS_KEY", "AWS_SESSION_TOKEN", "AWS_CONFIG_FILE",
   "AWS_SHARED_CREDENTIALS_FILE", "HOME"]

/-- The `completeEnvVars` map built by `setEnvironmentVariables`
(src/unnamed/part_005, lines 263-276): AWS variables present in the
parent environment first, then the configured variables, which take
precedence. The Go map is represented as an association list with
distinct keys; the configured entries shadow the copied AWS entries. -/
def completeEnvVars (env : EnvMap) (envVars : List (String × GoValue)) :
    List (String × GoValue) :=
  (awsEnvVars.filterMap (fun k => (env k).map (fun v => (k, GoValue.str v)))).filter
    (fun p => !((envVars.map Prod.fst).contains p.1))
  ++ envVars

/-- The mutable state threaded through the set-phase loop of
`setEnvironmentVariables`: the evolving process environment plus the
captured `originalValues` and `keysToUnset`. -/
structure EnvScope where
  env : EnvMap
  originalValues : List (String × String)
  keysToUnset : List String

/-- One iteration of the set-phase loop of `setEnvironmentVariables`
(src/unnamed/part_005, lines 279-292): record the original value (or
mark the key for unsetting), then set the new value only when it is a
string. -/
def applyEnvVar (st : EnvScope) (kv : String × GoValue) : EnvScope :=
  let st1 :=
    match st.env kv.1 with
    | some v => { st with originalValues := st.originalValues ++ [(kv.1, v)] }
    | none => { st with keysToUnset := st.keysToUnset ++ [kv.1] }
  match kv.2 with
  | .str s => { st1 with env := setenvF st1.env kv.1 s }
  | .nonstr => st1

/-- `setEnvironmentVariables` (src/unnamed/part_005, lines 253-292): the
set phase, returning the mutated environment together with the data the
returned restoration closure captures. Go map iteration order is
unspecified; the list order used here is immaterial because the keys of
`completeEnvVars` are distinct. -/
def setEnvironmentVariables (env : EnvMap) (envVars : List (String × GoValue)) :
    EnvScope :=
  (completeEnvVars env envVars).foldl applyEnvVar ⟨env, [], []⟩

/-- The restoration closure returned by `setEnvironmentVariables`
(src/unnamed/part_005, lines 295-305): re-set every captured original
value, then unset every key that did not exist before. It acts on
whatever environment is current when it runs (`e`), which models the
deferred call firing on every exit path. -/
def restoreEnv (scope : EnvScope) (e : EnvMap) : EnvMap :=
  scope.keysToUnset.foldl unsetenvF
    (scope.originalValues.foldl (fun acc p => setenvF acc p.1 p.2) e)

/-- `Result` from src/unnamed/part_001: output text, exit code, optional
structured error. -/
structure Result where
  output : String
  exitCode : Nat
  error : Option GoError
deriving DecidableEq, Repr

/-- Outcome of `cmd.CombinedOutput()` in `runCommand`
(src/pkg/helmfile/executor_binary.go, line 208): the child process
exited with a code (err is nil exactly when the code is 0 and is an
`*exec.ExitError` otherwise), or the command failed to start. -/
inductive ProcOutcome where
  | exited (output : String) (code : Nat)
  | startFailure (output : String) (msg : String)
deriving DecidableEq, Repr

/-- The error value `cmd.CombinedOutput()` reports for an outcome. -/
def combinedOutputErr : ProcOutcome → Option GoError
  | .exited _ 0 => none
  | .exited _ code => some (.exitError code)
  | .startFailure _ msg => some (.errorf msg)

/-- `BinaryExecutor.runCommand` normalization
(src/pkg/helmfile/executor_binary.go, lines 182-221): capture combined
output, initialize `ExitCode` to 0, overwrite it with the real exit code
only when the error is an `*exec.ExitError`, store the error in the
`Result`, and return the error unchanged alongside the `Result`. -/
def runCommand (outcome : ProcOutcome) : Result × Option GoError :=
  match outcome with
  | .exited out 0 => (⟨out, 0, none⟩, none)
  | .exited out code => (⟨out, code, some (.exitError code)⟩, some (.exitError code))
  | .startFailure out msg => (⟨out, 0, some (.errorf msg)⟩, some (.errorf msg))

/-- `LibraryExecutor.Diff` outcome normalization (src/unnamed/part_005,
lines 111-150): `appErr` is the error returned by the in-process
`helmfileApp.Diff` call and `captured` the captured log output; any
error is normalized to exit code 1 and returned, otherwise exit code 0. -/
def libraryDiff (appErr : Option GoError) (captured : String) :
    Result × Option GoError :=
  match appErr with
  | some e => (⟨captured, 1, some e⟩, some e)
  | none => (⟨captured, 0, none⟩, none)

/-- `BuildOptions` (src/unnamed/part_001): only `EmbedValues` beyond the
base options; `LibraryExecutor.Build` ignores it entirely. -/
structure BuildOptions where
  embedValues : Bool
deriving DecidableEq, Repr

/-- `LibraryExecutor.Build` (src/unnamed/part_005, lines 234-238):
unconditionally returns a nil result and a not-implemented error. -/
def libraryBuild (_opts : BuildOptions) : Option Result × Option GoError :=
  (none, some (.errorf "Build operation not yet implemented for library executor"))

/-- `LibraryExecutor.Version` (src/unnamed/part_005, lines 241-248):
unconditionally returns the placeholder string with no error. -/
def libraryVersion : String × Option GoError :=
  ("library-mode", none)

/-- Outcome of `os.Remove(path)` in `cleanupKubeconfig`: success, a
not-exist error (`os.IsNotExist` true), or any other removal error. -/
inductive RemoveOutcome where
  | ok
  | errNotExist
  | errOther (msg : String)
deriving DecidableEq, Repr

/-- `cleanupKubeconfig` (src/unnamed/part_000, lines 952-967): empty
path returns nil; a not-exist removal error is swallowed; any other
removal error is logged and RETURNED (despite the in-code comment
"Log but don't fail"). -/
def cleanupKubeconfig (path : String) (remove : RemoveOutcome) : Option GoError :=
  if path = "" then none
  else
    match remove with
    | .ok => none
    | .errNotExist => none
    | .errOther msg => some (.errorf msg)

/-- `EKSClusterConfig` (src/unnamed/part_000, lines 724-731). -/
structure EKSClusterConfig where
  clusterName : String
  region : String
  endpoint : String
  ca : String
  awsProfile : String
deriving DecidableEq, Repr

/-- `ExecEnvVar` (src/unnamed/part_000, lines 845-849). -/
structure ExecEnvVar where
  name : String
  value : String
deriving DecidableEq, Repr

/-- `ExecConfig` (src/unnamed/part_000, lines 837-843). -/
structure ExecConfig where
  apiVersion : String
  command : String
  args : List String
  env : List ExecEnvVar
deriving DecidableEq, Repr

/-- `UserEntry`/`UserDetail` (src/unnamed/part_000, lines 826-835). -/
structure UserEntry where
  name : String
  exec : ExecConfig
deriving DecidableEq, Repr

/-- `ContextEntry`/`ContextDetail` (src/unnamed/part_000, lines 814-824). -/
structure ContextEntry where
  name : String
  cluster : String
  user : String
deriving DecidableEq, Repr

/-- `ClusterEntry`/`ClusterDetail` (src/unnamed/part_000, lines 802-812). -/
structure ClusterEntry where
  name : String
  server : String
  certificateAuthorityData : String
deriving DecidableEq, Repr

/-- `KubeconfigData` (src/unnamed/part_000, lines 792-800). -/
structure KubeconfigData where
  apiVersion : String
  kind : String
  clusters : List ClusterEntry
  contexts : List ContextEntry
  currentContext : String
  users : List UserEntry
deriving DecidableEq, Repr

/-- The exec args built by `generateKubeconfigYAML`
(src/unnamed/part_000, lines 856-864). -/
def execArgs (config : EKSClusterConfig) : List String :=
  let args := ["eks", "get-token", "--cluster-name", config.clusterName]
  if config.region ≠ "" then args ++ ["--region", config.region] else args

/-- The exec env vars built by `generateKubeconfigYAML`
(src/unnamed/part_000, lines 866-873). -/
def execEnvVars (config : EKSClusterConfig) : List ExecEnvVar :=
  if config.awsProfile ≠ "" then [⟨"AWS_PROFILE", config.awsProfile⟩] else []

/-- The structured document built by `generateKubeconfigYAML`
(src/unnamed/part_000, lines 852-921), before YAML marshalling (the
marshalling step is outside the embedding). -/
def generateKubeconfigData (config : EKSClusterConfig) : KubeconfigData :=
  { apiVersion := "v1"
    kind := "Config"
    clusters := [⟨config.clusterName, config.endpoint, config.ca⟩]
    contexts := [⟨config.clusterName, config.clusterName, config.clusterName⟩]
    currentContext := config.clusterName
    users := [⟨config.clusterName,
      ⟨"client.authentication.k8s.io/v1beta1", "aws", execArgs config,
        execEnvVars config⟩⟩] }

/-- `s₁` occurs as a substring of `s₂` (used to state the
error-message-content clauses of the spec). -/
def containsSubstr (s sub : String) : Prop :=
  ∃ pre post, s = pre ++ sub ++ post

/-- The two derived output fields `markDiffOutputs` may mark stale
(`d.SetNewComputed(KeyDiffOutput)` / `d.SetNewComputed(KeyApplyOutput)`). -/
structure DiffOutputsMark where
  diffOutput : Bool
  applyOutput : Bool
deriving DecidableEq, Repr

/-- Modelled from the spec: `markDiffOutputs` — its implementation is
absent from src/ (only its unit tests, src/unnamed/part_000 lines
533-706, are present). Per the spec §4.3 table: if any tracked input key
changed (`d.HasChange` over `inputKeys`), both `diffOutput` and
`applyOutput` are marked stale; otherwise, if diff text is non-empty,
only `applyOutput` is marked; otherwise nothing is marked. `hasChange`
is the host controller diff-check capability (`d.HasChange`). -/
def markDiffOutputs (hasChange : String → Bool) (diff : String)
    (inputKeys : List String) : DiffOutputsMark :=
  if inputKeys.any hasChange then ⟨true, true⟩
  else if diff ≠ "" then ⟨false, true⟩
  else ⟨false, false⟩

/-- The schema fields `validateEKSConfiguration` reads (values of
`KeyKubeconfig`, `KeyEKSClusterName`, `KeyEKSClusterRegion`,
`KeyAWSRegion`, `KeyEKSClusterEndpoint`, `KeyEKSClusterCA`). -/
structure EKSValidationData where
  kubeconfig : String
  eksClusterName : String
  eksClusterRegion : String
  awsRegion : String
  eksClusterEndpoint : String
  eksClusterCA : String
deriving DecidableEq, Repr

/-- Modelled from the spec: `validateEKSConfiguration` — its compiled
implementation is absent from src/; present are the design-doc draft
(src/docs/eks-kubeconfig-implementation-plan.md lines 508-531) and the
unit tests (src/unnamed/part_000 lines 406-526). The region and
endpoint/CA branches follow the design-doc draft verbatim; the two
branches the draft lacks are forced by the tests: an explicit kubeconfig
path short-circuits all EKS validation (test row "Both kubeconfig and
EKS cluster (kubeconfig takes precedence)" passes with no region), and
with neither kubeconfig nor cluster name validation fails with the
must-provide-one error (test row "Neither kubeconfig nor EKS cluster").
The Go messages quote the field names in single quotes; the quotes are
omitted here. -/
def validateEKSConfiguration (d : EKSValidationData) : Option String :=
  if d.kubeconfig ≠ "" then none
  else if d.eksClusterName = "" then
    some "either kubeconfig or eks_cluster_name must be provided"
  else if d.eksClusterRegion = "" ∧ d.awsRegion = "" then
    some "when eks_cluster_name is set, either eks_cluster_region or aws_region must be provided"
  else if (d.eksClusterEndpoint ≠ "" ∧ d.eksClusterCA = "") ∨
      (d.eksClusterEndpoint = "" ∧ d.eksClusterCA ≠ "") then
    some "eks_cluster_endpoint and eks_cluster_ca must be provided together or both omitted for auto-discovery"
  else none

/-- The fields of `ReleaseSet` that `prepareHelmfileFile`
(src/unnamed/part_003, lines 15-75) reads or writes, plus a sample of
the fields it must leave untouched. `Values` holds the value-overlay
blobs in their `fmt.Sprintf("%s", vs)` string rendering; `Values = nil`
is represented by the empty list. -/
structure ReleaseSet where
  content : String
  workingDirectory : String
  enableGoTemplate : Bool
  values : List String
  valuesFiles : List String
  environment : String
  kubeconfig : String
  bin : String
  helmBin : String
  concurrency : Nat
deriving DecidableEq, Repr

/-- `filepath.Join(dir, name)` for a clean directory and a slash-free
file name. -/
def joinPath (dir name : String) : String :=
  dir ++ "/" ++ name

/-- `filepath.Abs` relative to the current working directory `cwd`: an
absolute path (leading slash) is returned unchanged, a relative one is
joined onto `cwd`. -/
def absPath (cwd p : String) : String :=
  if p.data.head? = some '/' then p else joinPath cwd p

/-- The manifest file name chosen by `prepareHelmfileFile`
(src/unnamed/part_003, lines 22-31): `helmfile-<sha256 hex><ext>`, with
the extension selected by the template-rendering flag. `hash` abstracts
the hex-encoded SHA-256 digest `fmt.Sprintf("%x", first.Sum(nil))`. -/
def manifestFileName (hash : String → String) (content : String)
    (enableGoTemplate : Bool) : String :=
  "helmfile-" ++ hash content ++
    (if enableGoTemplate then ".yaml.gotmpl" else ".yaml")

/-- The temp value-file path written for one overlay blob by
`prepareHelmfileFile` (src/unnamed/part_003, lines 40-54):
`temp.values-<sha256 hex>.yaml` under the working directory, made
absolute. -/
def tempValuesPath (hash : String → String) (cwd workingDir blob : String) :
    String :=
  absPath cwd (joinPath workingDir ("temp.values-" ++ hash blob ++ ".yaml"))

/-- `prepareHelmfileFile` (src/unnamed/part_003, lines 15-75), success
path: returns the updated `ReleaseSet` and the manifest file path. Temp
value paths are generated in `fs.Values` order and prepended to
`fs.ValuesFiles` when at least one overlay was supplied; `fs.Values` is
cleared. Directory creation and file writes are I/O outside the
embedding; their failure aborts before any mutation. -/
def prepareHelmfileFile (hash : String → String) (cwd : String)
    (fs : ReleaseSet) : ReleaseSet × String :=
  let tmpFilePath :=
    joinPath fs.workingDirectory
      (manifestFileName hash fs.content fs.enableGoTemplate)
  let tempValuesPaths := fs.values.map (tempValuesPath hash cwd fs.workingDirectory)
  let fs' :=
    { fs with
      valuesFiles :=
        if tempValuesPaths.length > 0 then tempValuesPaths ++ fs.valuesFiles
        else fs.valuesFiles
      values := [] }
  (fs', tmpFilePath)

/-- The environment component of one set-phase iteration: only a string
value is written, at the iterated key. -/
theorem applyEnvVar_env (st : EnvScope) (kv : String × GoValue) :
    (applyEnvVar st kv).env = match kv.2 with
      | .str s => setenvF st.env kv.1 s
      | .nonstr => st.env := by
  rcases kv with ⟨k, val⟩
  cases val <;> cases h : st.env k <;> simp [applyEnvVar, h]

/-- The `originalValues` component of one set-phase iteration: a present
key appends its original value. -/
theorem applyEnvVar_orig (st : EnvScope) (kv : String × GoValue) :
    (applyEnvVar st kv).originalValues = match st.env kv.1 with
      | some v => st.originalValues ++ [(kv.1, v)]
      | none => st.originalValues := by
  rcases kv with ⟨k, val⟩
  cases val <;> cases h : st.env k <;> simp [applyEnvVar, h]

/-- The `keysToUnset` component of one set-phase iteration: an absent
key is appended for unsetting. -/
theorem applyEnvVar_unset (st : EnvScope) (kv : String × GoValue) :
    (applyEnvVar st kv).keysToUnset = match st.env kv.1 with
      | some _ => st.keysToUnset
      | none => st.keysToUnset ++ [kv.1] := by
  rcases kv with ⟨k, val⟩
  cases val <;> cases h : st.env k <;> simp [applyEnvVar, h]

/-- Folding `setenvF` over bindings that do not mention `k` leaves `k`
unchanged. -/
theorem foldl_setenv_not_mem (L : List (String × String)) (e : EnvMap) (k : String)
    (h : k ∉ L.map Prod.fst) :
    (L.foldl (fun acc p => setenvF acc p.1 p.2) e) k = e k := by
  induction L generalizing e with
  | nil => rfl
  | cons x xs ih =>
    simp only [List.map_cons, List.mem_cons, not_or] at h
    rw [List.foldl_cons, ih _ h.2]
    simp [setenvF, h.1]

/-- Folding `setenvF` over bindings with distinct keys sets `k` to its
unique binding. -/
theorem foldl_setenv_mem (L : List (String × String)) (e : EnvMap) (k v : String)
    (hnd : (L.map Prod.fst).Nodup) (hmem : (k, v) ∈ L) :
    (L.foldl (fun acc p => setenvF acc p.1 p.2) e) k = some v := by
  induction L generalizing e with
  | nil => cases hmem
  | cons x xs ih =>
    simp only [List.map_cons, List.nodup_cons] at hnd
    rcases List.mem_cons.mp hmem with heq | htail
    · subst heq
      rw [List.foldl_cons]
      rw [foldl_setenv_not_mem xs _ k hnd.1]
      simp [setenvF]
    · rw [List.foldl_cons]
      exact ih _ hnd.2 htail

/-- Folding `unsetenvF` removes exactly the listed keys. -/
theorem foldl_unsetenv (L : List String) (e : EnvMap) (k : String) :
    (L.foldl unsetenvF e) k = if k ∈ L then none else e k := by
  induction L generalizing e with
  | nil => simp
  | cons x xs ih =>
    rw [List.foldl_cons, ih]
    by_cases hx : k = x
    · subst hx
      simp [unsetenvF]
    · simp [unsetenvF, hx, List.mem_cons]

/-- The set phase leaves unmentioned keys untouched. -/
theorem applyEnvVar_fold_env_not_mem (L : List (String × GoValue)) (st : EnvScope)
    (k : String) (h : k ∉ L.map Prod.fst) :
    (L.foldl applyEnvVar st).env k = st.env k := by
  induction L generalizing st with
  | nil => rfl
  | cons x xs ih =>
    simp only [List.map_cons, List.mem_cons, not_or] at h
    rw [List.foldl_cons, ih _ h.2, applyEnvVar_env]
    rcases x with ⟨k0, val⟩
    cases val
    · simp [setenvF, h.1]
    · rfl

/-- The set phase writes a configured string binding (keys distinct). -/
theorem applyEnvVar_fold_env_str (L : List (String × GoValue)) (st : EnvScope)
    (k s : String) (hnd : (L.map Prod.fst).Nodup) (hmem : (k, .str s) ∈ L) :
    (L.foldl applyEnvVar st).env k = some s := by
  induction L generalizing st with
  | nil => cases hmem
  | cons x xs ih =>
    simp only [List.map_cons, List.nodup_cons] at hnd
    rcases List.mem_cons.mp hmem with heq | htail
    · subst heq
      rw [List.foldl_cons, applyEnvVar_fold_env_not_mem xs _ k hnd.1, applyEnvVar_env]
      simp [setenvF]
    · rw [List.foldl_cons]
      exact ih _ hnd.2 htail

/-- The set phase never writes a non-string binding (keys distinct). -/
theorem applyEnvVar_fold_env_nonstr (L : List (String × GoValue)) (st : EnvScope)
    (k : String) (hnd : (L.map Prod.fst).Nodup) (hmem : (k, .nonstr) ∈ L) :
    (L.foldl applyEnvVar st).env k = st.env k := by
  induction L generalizing st with
  | nil => cases hmem
  | cons x xs ih =>
    simp only [List.map_cons, List.nodup_cons] at hnd
    rcases List.mem_cons.mp hmem with heq | htail
    · subst heq
      rw [List.foldl_cons, applyEnvVar_fold_env_not_mem xs _ k hnd.1, applyEnvVar_env]
    · rw [List.foldl_cons, ih _ hnd.2 htail, applyEnvVar_env]
      have hne : k ≠ x.1 := by
        intro hkx
        exact hnd.1 (hkx ▸ (List.mem_map.mpr ⟨(k, .nonstr), htail, hkx ▸ rfl⟩))
      rcases x with ⟨k0, val⟩
      cases val
      · simp [setenvF, hne]
      · rfl

/-- Characterization of the captured restoration data: provided the keys
are distinct and the starting environment agrees with `env0` on them,
`originalValues` collects exactly the bindings `env0` had and
`keysToUnset` exactly the keys `env0` lacked. -/
theorem applyEnvVar_fold_spec (L : List (String × GoValue)) (st : EnvScope)
    (env0 : EnvMap) (hnd : (L.map Prod.fst).Nodup)
    (hagree : ∀ k ∈ L.map Prod.fst, st.env k = env0 k) :
    (L.foldl applyEnvVar st).originalValues =
      st.originalValues ++
        L.filterMap (fun kv => (env0 kv.1).map (fun v => (kv.1, v))) ∧
    (L.foldl applyEnvVar st).keysToUnset =
      st.keysToUnset ++
        (L.filter (fun kv => (env0 kv.1).isNone)).map Prod.fst := by
  induction L generalizing st with
  | nil => simp
  | cons x xs ih =>
    simp only [List.map_cons, List.nodup_cons] at hnd
    have hx : st.env x.1 = env0 x.1 := hagree x.1 (by simp)
    have hagree' : ∀ k ∈ xs.map Prod.fst, (applyEnvVar st x).env k = env0 k := by
      intro k hk
      rw [applyEnvVar_env]
      have hne : k ≠ x.1 := fun hkx => hnd.1 (hkx ▸ hk)
      rcases x with ⟨k0, val⟩
      cases val
      · simpa [setenvF, hne] using hagree k (by simp [hk])
      · exact hagree k (by simp [hk])
    rw [List.foldl_cons]
    obtain ⟨ho, hu⟩ := ih (applyEnvVar st x) hnd.2 hagree'
    constructor
    · rw [ho, applyEnvVar_orig, hx]
      cases henv : env0 x.1 <;> simp [henv, List.filterMap_cons]
    · rw [hu, applyEnvVar_unset, hx]
      cases henv : env0 x.1 <;> simp [henv, List.filter_cons, Option.isNone]

/-- Keys of the captured original bindings are the present keys. -/
theorem mapfst_filterMap (env0 : EnvMap) (L : List (String × GoValue)) :
    (L.filterMap (fun kv => (env0 kv.1).map (fun v => (kv.1, v)))).map Prod.fst =
      (L.map Prod.fst).filter (fun k => (env0 k).isSome) := by
  induction L with
  | nil => rfl
  | cons x xs ih =>
    cases henv : env0 x.1 <;>
      simp [List.filterMap_cons, List.filter_cons, henv, ih, Option.isSome]

/-- Keys of the copied AWS bindings are the present AWS variables. -/
theorem mapfst_filterMap_str (env0 : EnvMap) (L : List String) :
    ((L.filterMap (fun k => (env0 k).map (fun v => (k, GoValue.str v)))).map
      Prod.fst) = L.filter (fun k => (env0 k).isSome) := by
  induction L with
  | nil => rfl
  | cons x xs ih =>
    cases henv : env0 x <;>
      simp [List.filterMap_cons, List.filter_cons, henv, ih, Option.isSome]

/-- Filtering on a key predicate commutes with taking keys. -/
theorem mapfst_filter_fst (L : List (String × GoValue)) (p : String → Bool) :
    (L.filter (fun kv => p kv.1)).map Prod.fst = (L.map Prod.fst).filter p := by
  induction L with
  | nil => rfl
  | cons x xs ih =>
    by_cases hp : p x.1 <;> simp [List.filter_cons, hp, ih]

/-- The complete overlay map has distinct keys when the configured map
does (the Go map guarantee). -/
theorem completeEnvVars_keys_nodup (env : EnvMap)
    (envVars : List (String × GoValue))
    (hnd : (envVars.map Prod.fst).Nodup) :
    ((completeEnvVars env envVars).map Prod.fst).Nodup := by
  unfold completeEnvVars
  rw [List.map_append,
    mapfst_filter_fst _ (fun k => !((envVars.map Prod.fst).contains k)),
    mapfst_filterMap_str]
  refine List.Nodup.append ?_ hnd ?_
  · exact ((by decide : awsEnvVars.Nodup).filter _).filter _
  · intro k hk1 hk2
    have h1 := List.of_mem_filter hk1
    rw [Bool.not_eq_true'] at h1
    have h2 : k ∉ envVars.map Prod.fst := by simpa using h1
    exact h2 hk2

/-- Two predicates that agree on a list give the same `List.any`. -/
theorem any_congr_mem (l : List String) (p q : String → Bool)
    (h : ∀ a ∈ l, p a = q a) : l.any p = l.any q := by
  induction l with
  | nil => rfl
  | cons x xs ih =>
    simp only [List.any_cons]
    rw [h x (by simp), ih (fun a ha => h a (by simp [ha]))]

/-- C1: The diff-reconciliation decision satisfies the §4.3 table
exhaustively: both outputs are marked stale when any tracked input key
changed (diff text present or not), only `applyOutput` is marked when no
tracked input changed but diff text is non-empty, nothing is marked when
no tracked input changed and diff text is empty, and the decision
depends only on the change status of the tracked keys, so a change to a
key outside the tracked set marks nothing. -/
theorem c1_markDiffOutputs_table (hasChange : String → Bool) (diff : String)
    (inputKeys : List String) :
    (inputKeys.any hasChange = true →
      markDiffOutputs hasChange diff inputKeys = ⟨true, true⟩) ∧
    (inputKeys.any hasChange = false → diff ≠ "" →
      markDiffOutputs hasChange diff inputKeys = ⟨false, true⟩) ∧
    (inputKeys.any hasChange = false → diff = "" →
      markDiffOutputs hasChange diff inputKeys = ⟨false, false⟩) ∧
    (∀ hasChange' : String → Bool, (∀ k ∈ inputKeys, hasChange k = hasChange' k) →
      markDiffOutputs hasChange diff inputKeys =
        markDiffOutputs hasChange' diff inputKeys) := by
  refine ⟨fun h => ?_, fun h hd => ?_, fun h hd => ?_, fun hc' hagree => ?_⟩
  · simp [markDiffOutputs, h]
  · simp [markDiffOutputs, h, hd]
  · simp [markDiffOutputs, h, hd]
  · have : inputKeys.any hasChange = inputKeys.any hc' :=
      any_congr_mem inputKeys hasChange hc' hagree
    simp only [markDiffOutputs, this]

/-- Witness for C1 at a concrete tracked-key set, change set and diff
text. -/
theorem c1_markDiffOutputs_table_witness :
    (["values", "content"].any (fun k => k == "values") = true) ∧
    markDiffOutputs (fun k => k == "values") "" ["values", "content"] =
      ⟨true, true⟩ := by
  exact ⟨by decide,
    (c1_markDiffOutputs_table (fun k => k == "values") "" ["values", "content"]).1
      (by decide)⟩

/-- C3 counterexample: a diff operation's "changes pending" exit code 2
IS reported as an operational error by both execution variants — the
binary variant's `runCommand` returns the process error for exit code 2
(with the diff text only carried in the `Result`), and the library
variant's `Diff` returns any in-process error normalized to exit code 1.
The claimed reclassification of the changes-pending code does not happen
inside the executors. -/
theorem c3_exit2_is_operational_error :
    (runCommand (.exited "default, myapp, Deployment (apps) has changed" 2)).2 =
      some (.exitError 2) ∧
    (libraryDiff (some (.exitError 2)) "diff output").2 = some (.exitError 2) ∧
    (libraryDiff (some (.exitError 2)) "diff output").1.exitCode = 1 := by
  exact ⟨rfl, rfl, rfl⟩

/-- C3 (amended): both variants normalize outcomes into a `Result`
carrying the captured output, and return the underlying error for EVERY
non-zero exit code uniformly — the binary variant records the actual
exit code (the diff changes-pending code 2 included) in the `Result` and
returns the process error, and the library variant returns any
in-process failure with exit code 1; no diff-specific exit code is
treated specially inside the executors. -/
theorem c3_executors_uniform_exit_rule (out msg captured : String) (code : Nat)
    (appErr : Option GoError) :
    runCommand (.exited out code) =
      (⟨out, code, if code = 0 then none else some (.exitError code)⟩,
        if code = 0 then none else some (.exitError code)) ∧
    runCommand (.startFailure out msg) =
      (⟨out, 0, some (.errorf msg)⟩, some (.errorf msg)) ∧
    (runCommand (.exited out code)).2 = combinedOutputErr (.exited out code) ∧
    (libraryDiff appErr captured).1.output = captured ∧
    (libraryDiff appErr captured).2 = appErr ∧
    (libraryDiff appErr captured).1.exitCode = (if appErr = none then 0 else 1) := by
  refine ⟨?_, rfl, ?_, ?_, ?_, ?_⟩
  · cases code <;> rfl
  · cases code <;> rfl
  · cases appErr <;> rfl
  · cases appErr <;> rfl
  · cases appErr <;> rfl

/-- C5: evaluation of `cleanupKubeconfig` at the failing input — a
removal failure other than absence (e.g. a permission error) is RETURNED
to the caller, contradicting the in-code comment "Log but don't fail"
and the spec; the remaining clauses of the claim hold (empty path,
non-existent path, and the second of two calls on a real path all return
no error). -/
theorem c5_cleanup_returns_removal_error :
    cleanupKubeconfig "/tmp/.terraform-helmfile-kubeconfig-c-ab12cd34"
        (.errOther "permission denied") = some (.errorf "permission denied") ∧
    cleanupKubeconfig "/tmp/non-existent-file-12345" .errNotExist = none ∧
    cleanupKubeconfig "" .ok = none ∧
    cleanupKubeconfig "/tmp/.terraform-helmfile-kubeconfig-c-ab12cd34"
        .errNotExist = none := by
  exact ⟨by decide, by decide, by decide, by decide⟩

/-- C6: for every cluster credential, the rendered document has exactly
one cluster entry, one context entry, one user entry and a
current-context all named after the cluster; the user exec entry has
command "aws", args beginning `["eks","get-token","--cluster-name",
name]` with `["--region", region]` appended exactly when the region is
non-empty, and exactly one `{name: AWS_PROFILE, value: profile}`
exec-env entry when a profile is configured and none when it is empty. -/
theorem c6_generateKubeconfig_structure (config : EKSClusterConfig) :
    (generateKubeconfigData config).apiVersion = "v1" ∧
    (generateKubeconfigData config).kind = "Config" ∧
    (generateKubeconfigData config).clusters =
      [⟨config.clusterName, config.endpoint, config.ca⟩] ∧
    (generateKubeconfigData config).contexts =
      [⟨config.clusterName, config.clusterName, config.clusterName⟩] ∧
    (generateKubeconfigData config).currentContext = config.clusterName ∧
    (generateKubeconfigData config).users =
      [⟨config.clusterName,
        ⟨"client.authentication.k8s.io/v1beta1", "aws",
          ["eks", "get-token", "--cluster-name", config.clusterName] ++
            (if config.region = "" then [] else ["--region", config.region]),
          if config.awsProfile = "" then []
          else [⟨"AWS_PROFILE", config.awsProfile⟩]⟩⟩] ∧
    (execEnvVars config).countP (fun e => e.name == "AWS_PROFILE") =
      (if config.awsProfile = "" then 0 else 1) := by
  refine ⟨rfl, rfl, rfl, rfl, rfl, ?_, ?_⟩
  · by_cases hr : config.region = "" <;> by_cases hp : config.awsProfile = "" <;>
      simp [generateKubeconfigData, execArgs, execEnvVars, hr, hp]
  · by_cases hp : config.awsProfile = "" <;>
      simp [execEnvVars, hp, List.countP_cons, List.countP_nil]

/-- C9: the in-process variant's `Build` returns a nil result and a
not-implemented error for every input, and its `Version` always returns
the constant "library-mode" with no error. -/
theorem c9_library_build_version (opts : BuildOptions) :
    (libraryBuild opts).1 = none ∧
    (libraryBuild opts).2 =
      some (.errorf "Build operation not yet implemented for library executor") ∧
    containsSubstr "Build operation not yet implemented for library executor"
      "not yet implemented" ∧
    libraryVersion = ("library-mode", none) := by
  refine ⟨rfl, rfl, ⟨"Build operation ", " for library executor", ?_⟩, rfl⟩
  decide

/-- C2: Environment scoping round-trips — for every override mapping
(with distinct keys, as a Go map has) and every prior process
environment, the restoration action returned by
`setEnvironmentVariables` restores every affected variable exactly to
its pre-call state: the same value if it was present (present-but-empty
included, since `EnvMap` distinguishes `some ""` from `none`), absent if
it was absent. It does so from an ARBITRARY environment `e` current when
the restoration runs, which covers every exit path of the wrapped
operation, failure included. -/
theorem c2_env_scoping_roundtrip (env0 : EnvMap)
    (envVars : List (String × GoValue)) (e : EnvMap) (k : String)
    (hnd : (envVars.map Prod.fst).Nodup)
    (hk : k ∈ (completeEnvVars env0 envVars).map Prod.fst) :
    restoreEnv (setEnvironmentVariables env0 envVars) e k = env0 k := by
  have hndC := completeEnvVars_keys_nodup env0 envVars hnd
  obtain ⟨ho, hu⟩ :=
    applyEnvVar_fold_spec (completeEnvVars env0 envVars) ⟨env0, [], []⟩ env0 hndC
      (fun _ _ => rfl)
  unfold setEnvironmentVariables restoreEnv
  rw [ho, hu]
  simp only [List.nil_append]
  rw [foldl_unsetenv]
  obtain ⟨kv, hkvC, hkvfst⟩ := List.mem_map.mp hk
  cases henv : env0 k with
  | some v =>
    have hnotun :
        k ∉ ((completeEnvVars env0 envVars).filter
          (fun kv => (env0 kv.1).isNone)).map Prod.fst := by
      intro hmem
      obtain ⟨kv2, hkv2, hfst2⟩ := List.mem_map.mp hmem
      have hnone := List.of_mem_filter hkv2
      rw [hfst2, henv] at hnone
      cases hnone
    rw [if_neg hnotun]
    have hmemo : (k, v) ∈ (completeEnvVars env0 envVars).filterMap
        (fun kv => (env0 kv.1).map (fun v => (kv.1, v))) := by
      refine List.mem_filterMap.mpr ⟨kv, hkvC, ?_⟩
      rw [hkvfst, henv]
      rfl
    have hndo : (((completeEnvVars env0 envVars).filterMap
        (fun kv => (env0 kv.1).map (fun v => (kv.1, v)))).map Prod.fst).Nodup := by
      rw [mapfst_filterMap]
      exact hndC.filter _
    exact foldl_setenv_mem _ e k v hndo hmemo
  | none =>
    have hun : k ∈ ((completeEnvVars env0 envVars).filter
        (fun kv => (env0 kv.1).isNone)).map Prod.fst := by
      refine List.mem_map.mpr ⟨kv, List.mem_filter.mpr ⟨hkvC, ?_⟩, hkvfst⟩
      rw [hkvfst, henv]
      rfl
    rw [if_pos hun]

/-- Witness for C2 at a concrete prior environment, override mapping and
affected key, with the wrapped operation having scribbled over the whole
environment before restoration. -/
theorem c2_env_scoping_roundtrip_witness :
    (((([("FOO", GoValue.str "new"), ("BAR", GoValue.str "b")] :
        List (String × GoValue)).map Prod.fst).Nodup) ∧
      "BAR" ∈ (completeEnvVars
        (fun n => if n = "HOME" then some "/root"
          else if n = "FOO" then some "old" else none)
        [("FOO", GoValue.str "new"), ("BAR", GoValue.str "b")]).map Prod.fst) ∧
    restoreEnv
      (setEnvironmentVariables
        (fun n => if n = "HOME" then some "/root"
          else if n = "FOO" then some "old" else none)
        [("FOO", GoValue.str "new"), ("BAR", GoValue.str "b")])
      (fun _ => some "mutated-by-wrapped-call") "BAR" =
      (fun n => if n = "HOME" then some "/root"
        else if n = "FOO" then some "old" else none : EnvMap) "BAR" := by
  exact ⟨⟨by decide, by decide⟩,
    c2_env_scoping_roundtrip _ _ _ "BAR" (by decide) (by decide)⟩

/-- C8: for in-process execution, `setEnvironmentVariables` applies not
only the configured override map but also silently propagates each fixed
AWS/HOME variable present in the parent environment (it lands in the
complete overlay map and survives in the resulting environment), an
explicitly configured variable of the same name takes precedence, and a
configured value that is not a string is never written into the
environment. -/
theorem c8_aws_propagation (env0 : EnvMap) (envVars : List (String × GoValue))
    (k v w : String) (hnd : (envVars.map Prod.fst).Nodup) :
    (k ∈ awsEnvVars → env0 k = some v → k ∉ envVars.map Prod.fst →
      ((k, GoValue.str v) ∈ completeEnvVars env0 envVars ∧
        (setEnvironmentVariables env0 envVars).env k = some v)) ∧
    ((k, GoValue.str w) ∈ envVars →
      (setEnvironmentVariables env0 envVars).env k = some w) ∧
    ((k, GoValue.nonstr) ∈ envVars →
      (setEnvironmentVariables env0 envVars).env k = env0 k) := by
  have hndC := completeEnvVars_keys_nodup env0 envVars hnd
  refine ⟨fun hkaws henv hknotin => ?_, fun hmem => ?_, fun hmem => ?_⟩
  · have hmemC : (k, GoValue.str v) ∈ completeEnvVars env0 envVars := by
      refine List.mem_append.mpr (Or.inl (List.mem_filter.mpr ⟨?_, ?_⟩))
      · refine List.mem_filterMap.mpr ⟨k, hkaws, ?_⟩
        rw [henv]
        rfl
      · simp only [Bool.not_eq_true']
        by_contra hcontains
        rw [Bool.not_eq_false] at hcontains
        exact hknotin (by simpa using hcontains)
    exact ⟨hmemC, applyEnvVar_fold_env_str _ _ k v hndC hmemC⟩
  · have hmemC : (k, GoValue.str w) ∈ completeEnvVars env0 envVars :=
      List.mem_append.mpr (Or.inr hmem)
    exact applyEnvVar_fold_env_str _ _ k w hndC hmemC
  · have hmemC : (k, GoValue.nonstr) ∈ completeEnvVars env0 envVars :=
      List.mem_append.mpr (Or.inr hmem)
    exact applyEnvVar_fold_env_nonstr _ _ k hndC hmemC

/-- Witness for C8 at a concrete parent environment in which `HOME` is
present but not configured: it is propagated with its parent value. -/
theorem c8_aws_propagation_witness :
    ((([("FOO", GoValue.str "new"), ("BAR", GoValue.nonstr)] :
        List (String × GoValue)).map Prod.fst).Nodup) ∧
    (setEnvironmentVariables
      (fun n => if n = "HOME" then some "/root"
        else if n = "FOO" then some "old" else none)
      [("FOO", GoValue.str "new"), ("BAR", GoValue.nonstr)]).env "HOME" =
      some "/root" := by
  refine ⟨by decide, ?_⟩
  exact ((c8_aws_propagation
    (fun n => if n = "HOME" then some "/root"
      else if n = "FOO" then some "old" else none)
    [("FOO", GoValue.str "new"), ("BAR", GoValue.nonstr)]
    "HOME" "/root" "new" (by decide)).1 (by decide) (by decide) (by decide)).2

/-- Appending on the right is injective on strings. -/
theorem append_right_inj (a b e : String) (h : a ++ e = b ++ e) : a = b := by
  have hd := congrArg String.data h
  rw [String.data_append, String.data_append] at hd
  exact String.ext (List.append_cancel_right hd)

/-- Appending on the left is injective on strings. -/
theorem append_left_inj (a b e : String) (h : e ++ a = e ++ b) : a = b := by
  have hd := congrArg String.data h
  rw [String.data_append, String.data_append] at hd
  exact String.ext (List.append_cancel_left hd)

/-- Joining distinct names under one directory yields distinct paths. -/
theorem joinPath_inj (dir n1 n2 : String) (h : joinPath dir n1 = joinPath dir n2) :
    n1 = n2 := by
  unfold joinPath at h
  have hd := congrArg String.data h
  rw [String.data_append, String.data_append, String.data_append,
    String.data_append] at hd
  exact String.ext (List.append_cancel_left hd)

/-- The first character of a joined path depends only on the directory. -/
theorem joinPath_head (dir n : String) :
    (joinPath dir n).data.head? =
      (match dir.data with | [] => some '/' | c :: _ => some c) := by
  unfold joinPath
  rw [String.data_append, String.data_append]
  cases hdir : dir.data with
  | nil => rfl
  | cons c cs => rfl

/-- Absolutizing paths joined under one directory is injective in the
file name. -/
theorem absPath_join_inj (cwd dir n1 n2 : String)
    (h : absPath cwd (joinPath dir n1) = absPath cwd (joinPath dir n2)) :
    n1 = n2 := by
  unfold absPath at h
  rw [joinPath_head dir n1, joinPath_head dir n2] at h
  by_cases hh : (match dir.data with | [] => some '/' | c :: _ => some c) = some '/'
  · rw [if_pos hh, if_pos hh] at h
    exact joinPath_inj dir n1 n2 h
  · rw [if_neg hh, if_neg hh] at h
    exact joinPath_inj dir n1 n2 (joinPath_inj cwd _ _ h)

/-- Distinct hash digests give distinct manifest file names (same
template flag). -/
theorem manifestFileName_inj (hash : String → String) (c1 c2 : String)
    (flag : Bool) (hne : hash c1 ≠ hash c2) :
    manifestFileName hash c1 flag ≠ manifestFileName hash c2 flag := by
  intro h
  unfold manifestFileName at h
  exact hne (append_left_inj _ _ _ (append_right_inj _ _ _ h))

/-- C4: workspace materialization is content-deterministic and
collision-free — for two specs with the same working directory and the
same template-rendering flag, equal manifest content yields the
identical manifest path (`prepareHelmfileFile` result), and distinct
contents yield distinct paths whenever their SHA-256 hex digests differ
(the digest, an external crypto primitive, is abstracted as `hash`; the
hypothesis `hash c1 ≠ hash c2` is SHA-256 collision-freedom at this
pair); the same holds for each value-overlay blob's temp file path. -/
theorem c4_workspace_content_addressing (hash : String → String) (cwd : String)
    (fs1 fs2 : ReleaseSet) (blob1 blob2 : String)
    (hwd : fs1.workingDirectory = fs2.workingDirectory)
    (hflag : fs1.enableGoTemplate = fs2.enableGoTemplate) :
    (fs1.content = fs2.content →
      (prepareHelmfileFile hash cwd fs1).2 = (prepareHelmfileFile hash cwd fs2).2) ∧
    (hash fs1.content ≠ hash fs2.content →
      (prepareHelmfileFile hash cwd fs1).2 ≠ (prepareHelmfileFile hash cwd fs2).2) ∧
    (blob1 = blob2 →
      tempValuesPath hash cwd fs1.workingDirectory blob1 =
        tempValuesPath hash cwd fs2.workingDirectory blob2) ∧
    (hash blob1 ≠ hash blob2 →
      tempValuesPath hash cwd fs1.workingDirectory blob1 ≠
        tempValuesPath hash cwd fs2.workingDirectory blob2) := by
  refine ⟨fun hc => ?_, fun hne => ?_, fun hb => ?_, fun hne => ?_⟩
  · show joinPath _ _ = joinPath _ _
    rw [hwd, hflag, hc]
  · intro h
    have h3 : joinPath fs1.workingDirectory
        (manifestFileName hash fs1.content fs1.enableGoTemplate) =
      joinPath fs2.workingDirectory
        (manifestFileName hash fs2.content fs2.enableGoTemplate) := h
    rw [hwd, hflag] at h3
    exact manifestFileName_inj hash fs1.content fs2.content fs2.enableGoTemplate
      hne (joinPath_inj _ _ _ h3)
  · unfold tempValuesPath
    rw [hwd, hb]
  · intro h
    rw [hwd] at h
    have hname := absPath_join_inj _ _ _ _ h
    exact hne (append_left_inj _ _ _ (append_right_inj _ _ _ hname))

/-- Witness for C4 at concrete specs and a concrete (injective-here)
digest function. -/
theorem c4_workspace_content_addressing_witness :
    (("wd" : String) = "wd" ∧ (false = false) ∧
      ("contentA" : String) ≠ "contentB" ∧
      (fun s : String => s) "contentA" ≠ (fun s : String => s) "contentB") ∧
    (prepareHelmfileFile (fun s => s) "/cwd"
        ⟨"contentA", "wd", false, [], [], "", "", "", "", 0⟩).2 ≠
      (prepareHelmfileFile (fun s => s) "/cwd"
        ⟨"contentB", "wd", false, [], [], "", "", "", "", 0⟩).2 := by
  refine ⟨⟨rfl, rfl, by decide, by decide⟩, ?_⟩
  exact (c4_workspace_content_addressing (fun s => s) "/cwd"
    ⟨"contentA", "wd", false, [], [], "", "", "", "", 0⟩
    ⟨"contentB", "wd", false, [], [], "", "", "", "", 0⟩
    "b1" "b2" rfl rfl).2.1 (by decide)

/-- C10: workspace materialization mutates the caller-owned spec — after
`prepareHelmfileFile` succeeds, `Values` is nil, `ValuesFiles` equals
the generated temp value-file absolute paths in the original `Values`
order followed by the previously configured entries whenever at least
one overlay was supplied (and is untouched otherwise), and all other
spec fields are unchanged. -/
theorem c10_prepare_mutates_spec (hash : String → String) (cwd : String)
    (fs : ReleaseSet) :
    (prepareHelmfileFile hash cwd fs).1.values = [] ∧
    (prepareHelmfileFile hash cwd fs).1.valuesFiles =
      (if fs.values.isEmpty then fs.valuesFiles
       else fs.values.map (tempValuesPath hash cwd fs.workingDirectory) ++
         fs.valuesFiles) ∧
    (prepareHelmfileFile hash cwd fs).1.content = fs.content ∧
    (prepareHelmfileFile hash cwd fs).1.workingDirectory = fs.workingDirectory ∧
    (prepareHelmfileFile hash cwd fs).1.enableGoTemplate = fs.enableGoTemplate ∧
    (prepareHelmfileFile hash cwd fs).1.environment = fs.environment ∧
    (prepareHelmfileFile hash cwd fs).1.kubeconfig = fs.kubeconfig ∧
    (prepareHelmfileFile hash cwd fs).1.bin = fs.bin ∧
    (prepareHelmfileFile hash cwd fs).1.helmBin = fs.helmBin ∧
    (prepareHelmfileFile hash cwd fs).1.concurrency = fs.concurrency := by
  refine ⟨rfl, ?_, rfl, rfl, rfl, rfl, rfl, rfl, rfl, rfl⟩
  cases hv : fs.values with
  | nil => simp [prepareHelmfileFile, hv]
  | cons x xs => simp [prepareHelmfileFile, hv]

/-- C7 counterexample: a spec with an explicit kubeconfig path, no
cluster reference, the endpoint set and the CA unset passes validation
with no error — the claim says every endpoint-without-CA spec fails with
a "must be provided together" error, but an explicit credential path
short-circuits all EKS validation (the design-doc draft returns nil
whenever the cluster name is empty, and the unit test row with both
kubeconfig and cluster name but no region passes only if the explicit
path short-circuits). -/
theorem c7_endpoint_without_ca_passes :
    validateEKSConfiguration
      ⟨"/path/to/kubeconfig", "", "", "", "https://example.eks.amazonaws.com", ""⟩ =
      none := by
  decide

/-- C7 (amended): validation fails exactly on the specified conflicts
AMONG SPECS WITHOUT AN EXPLICIT CREDENTIAL PATH — a spec with an
explicit path passes outright (the path takes precedence); with no path,
a missing cluster reference fails with the must-provide-one error
(containing "must be provided"), a cluster reference without a
resolvable region fails, endpoint-xor-CA fails with the
provided-together error (containing "must be provided together"), and
every other combination passes. -/
theorem c7_validate_eks_configuration (d : EKSValidationData) :
    (d.kubeconfig ≠ "" → validateEKSConfiguration d = none) ∧
    (d.kubeconfig = "" → d.eksClusterName = "" →
      validateEKSConfiguration d =
        some "either kubeconfig or eks_cluster_name must be provided") ∧
    (d.kubeconfig = "" → d.eksClusterName ≠ "" → d.eksClusterRegion = "" →
      d.awsRegion = "" →
      validateEKSConfiguration d =
        some "when eks_cluster_name is set, either eks_cluster_region or aws_region must be provided") ∧
    (d.kubeconfig = "" → d.eksClusterName ≠ "" →
      (d.eksClusterRegion ≠ "" ∨ d.awsRegion ≠ "") →
      ((d.eksClusterEndpoint ≠ "" ∧ d.eksClusterCA = "") ∨
        (d.eksClusterEndpoint = "" ∧ d.eksClusterCA ≠ "")) →
      validateEKSConfiguration d =
        some "eks_cluster_endpoint and eks_cluster_ca must be provided together or both omitted for auto-discovery") ∧
    (d.kubeconfig = "" → d.eksClusterName ≠ "" →
      (d.eksClusterRegion ≠ "" ∨ d.awsRegion ≠ "") →
      (d.eksClusterEndpoint = "" ↔ d.eksClusterCA = "") →
      validateEKSConfiguration d = none) ∧
    containsSubstr "either kubeconfig or eks_cluster_name must be provided"
      "must be provided" ∧
    containsSubstr
      "eks_cluster_endpoint and eks_cluster_ca must be provided together or both omitted for auto-discovery"
      "must be provided together" := by
  refine ⟨fun hk => ?_, fun hk hn => ?_, fun hk hn hr1 hr2 => ?_,
    fun hk hn hr hx => ?_, fun hk hn hr hca => ?_,
    ⟨"either kubeconfig or eks_cluster_name ", "", by decide⟩,
    ⟨"eks_cluster_endpoint and eks_cluster_ca ",
      " or both omitted for auto-discovery", by decide⟩⟩
  · simp [validateEKSConfiguration, hk]
  · simp [validateEKSConfiguration, hk, hn]
  · simp [validateEKSConfiguration, hk, hn, hr1, hr2]
  · have hreg : ¬(d.eksClusterRegion = "" ∧ d.awsRegion = "") := by
      rcases hr with h | h
      · exact fun hc => h hc.1
      · exact fun hc => h hc.2
    simp [validateEKSConfiguration, hk, hn, hreg, hx]
  · have hreg : ¬(d.eksClusterRegion = "" ∧ d.awsRegion = "") := by
      rcases hr with h | h
      · exact fun hc => h hc.1
      · exact fun hc => h hc.2
    have hx : ¬((d.eksClusterEndpoint ≠ "" ∧ d.eksClusterCA = "") ∨
        (d.eksClusterEndpoint = "" ∧ d.eksClusterCA ≠ "")) := by
      rintro (⟨hep, hcaeq⟩ | ⟨hepeq, hcane⟩)
      · exact hep (hca.mpr hcaeq)
      · exact hcane (hca.mp hepeq)
    simp [validateEKSConfiguration, hk, hn, hreg, hx]

/-- Witness for C7 (amended) at the concrete all-empty spec, which fails
with the must-provide-one error. -/
theorem c7_validate_eks_configuration_witness :
    (("" : String) = "" ∧ ("" : String) = "") ∧
    validateEKSConfiguration ⟨"", "", "", "", "", ""⟩ =
      some "either kubeconfig or eks_cluster_name must be provided" := by
  exact ⟨⟨rfl, rfl⟩,
    (c7_validate_eks_configuration ⟨"", "", "", "", "", ""⟩).2.1 rfl rfl⟩

end Helmfile
